import Mathlib

/-!
Verification of the parameter-binding and cursor layer of psycopg2cffi /
psycopg2ct, shallowly embedded from:
  - src/psycopg2cffi/_impl/adapters.py   (adapt, Int/Long/Float/Decimal.getquoted)
  - src/psycopg2ct/_impl/cursor.py       (Cursor state machine, _combine_cmd_params)

Byte strings are modelled as `List Char` (the source handles ASCII SQL text);
Python exceptions are an explicit error type; Python integers are `Int`/`Nat`.
-/

/-- Byte/character strings of the source, modelled as lists of characters. -/
abbrev Chars := List Char

/-- Python exceptions raised by the embedded code, one constructor per kind of
raise site.  `valueErrorUnsupportedFormat c pos` stands for
`ValueError("unsupported format character '%s' (0x%x) at index %d" % (c, ord(c), pos))`;
`keyError`/`indexError` are the container-lookup failures; `operationalError`
abstracts the connection's operational-error constructor. -/
inductive PyErr where
  | interfaceError (msg : String)
  | programmingError (msg : String)
  | operationalError
  | valueError (msg : String)
  | valueErrorUnsupportedFormat (c : Char) (pos : Nat)
  | typeError (msg : String)
  | keyError (key : Chars)
  | indexError
deriving DecidableEq, Repr

instance exceptDecEq {ε α : Type} [DecidableEq ε] [DecidableEq α] : DecidableEq (Except ε α)
  | .ok a, .ok b => decidable_of_iff (a = b) (by simp)
  | .error a, .error b => decidable_of_iff (a = b) (by simp)
  | .ok _, .error _ => isFalse (fun h => Except.noConfusion h)
  | .error _, .ok _ => isFalse (fun h => Except.noConfusion h)

/-! ## Adapters (src/psycopg2cffi/_impl/adapters.py) -/

/-- Decimal digit character, `chr(48 + d)`. -/
def digitChar (d : Nat) : Char := Char.ofNat (48 + d)

/-- Decimal text of a natural number, as produced by Python `str`. -/
def natToChars (n : Nat) : Chars :=
  if n < 10 then [digitChar n] else natToChars (n / 10) ++ [digitChar (n % 10)]
termination_by n
decreasing_by
  exact Nat.div_lt_self (by omega) (by omega)

/-- Python `str` of an integer: decimal text with a leading minus sign when
negative. -/
def pyIntRepr (n : Int) : Chars :=
  if n < 0 then '-' :: natToChars n.natAbs else natToChars n.natAbs

/-- `Int.getquoted` / `Long.getquoted` (adapters.py lines 163-170, 190-197):
`value = s(self._wrapped); if value.startswith('-'): value = ' ' + value`. -/
def intGetquoted (n : Int) : Chars :=
  let value := pyIntRepr n
  if value.head? = some '-' then ' ' :: value else value

/-- A Python float as classified by `Float.getquoted`: NaN, the two infinities,
or a finite value carried as its sign together with the decimal text `mag` of
its magnitude (so that Python `str` of the value is `('-' if neg) ++ mag`). -/
inductive PyFloat where
  | nan
  | inf
  | ninf
  | finite (neg : Bool) (mag : Chars)
deriving DecidableEq, Repr

/-- Python `str` of a finite float value (specials never reach this in the
source: they are caught by the isnan/isinf tests first). -/
def pyFloatRepr : PyFloat → Chars
  | .finite neg mag => if neg then '-' :: mag else mag
  | _ => []

/-- `Float.getquoted` (adapters.py lines 144-160). -/
def floatGetquoted : PyFloat → Chars
  | .nan => "'NaN'::float".toList
  | .inf => "'Infinity'::float".toList
  | .ninf => "'-Infinity'::float".toList
  | .finite neg mag =>
    let value := pyFloatRepr (.finite neg mag)
    if value.head? = some '-' then ' ' :: value else value

/-- A Python `decimal.Decimal` as classified by `Decimal.getquoted`:
`is_finite()` false (NaN, sNaN or an infinity), or finite with sign and the
decimal text `mag` of its magnitude. -/
inductive PyDecimal where
  | nonfinite
  | finite (neg : Bool) (mag : Chars)
deriving DecidableEq, Repr

/-- `Decimal.getquoted` (adapters.py lines 132-141). -/
def decimalGetquoted : PyDecimal → Chars
  | .nonfinite => "'NaN'::numeric".toList
  | .finite neg mag =>
    let value := if neg then '-' :: mag else mag
    if value.head? = some '-' then ' ' :: value else value

/-! ### The adapter registry and `adapt` (adapters.py lines 267-282)

A host value is modelled by the name of its runtime type, the names of the
remaining entries of the type's method-resolution order (`type(v).mro()[1:]`),
and its optional `__conform__` hook.  The hook takes the protocol and returns
either an adapter (named by a tag) or `None`, exactly as a Python
`__conform__` may.  The registry `adapters` maps `(type name, protocol)` to an
adapter constructor, named by a tag. -/

structure PyValue where
  typeName : String
  mroTail : List String
  conform : Option (String → Option String)

/-- The process-wide `adapters` dict, as an association list. -/
abbrev AdapterReg := List ((String × String) × String)

/-- `adapters[(t, proto)]`, as an optional lookup. -/
def lookupAdapter (reg : AdapterReg) (t proto : String) : Option String :=
  (reg.find? (fun kv => kv.1 = (t, proto))).map (fun kv => kv.2)

/-- What `adapt` returns: a registered adapter constructor applied to the
value, or whatever the value's `__conform__` hook returned. -/
inductive AdaptOutcome where
  | adapted (ctor : String)
  | conformed (r : Option String)
deriving DecidableEq, Repr

/-- The `for subtype in obj_type.mro()[1:]` loop of `adapt`: first registered
adapter along the ancestor list. -/
def mroWalk (reg : AdapterReg) (proto : String) : List String → Option String
  | [] => none
  | t :: ts =>
    match lookupAdapter reg t proto with
    | some c => some c
    | none => mroWalk reg proto ts

/-- `adapt(value, proto)` (adapters.py lines 267-282): exact-type lookup,
then the MRO walk, then the `__conform__` hook, else
`ProgrammingError("can't adapt type '...'")`. -/
def adapt (reg : AdapterReg) (v : PyValue) (proto : String) : Except PyErr AdaptOutcome :=
  match lookupAdapter reg v.typeName proto with
  | some c => .ok (.adapted c)
  | none =>
    match mroWalk reg proto v.mroTail with
    | some c => .ok (.adapted c)
    | none =>
      match v.conform with
      | some f => .ok (.conformed (f proto))
      | none => .error (.programmingError ("can't adapt type '" ++ v.typeName ++ "'"))

/-- Modelled from the spec's words, for comparison with `adapt`: "lookup walks
the value's type and its ancestor types in method-resolution order until a
match is found, falling back to a duck-typed self-adapting hook, else fails."
The walk is a single pass over `type :: mro()[1:]`. -/
def adaptSpec (reg : AdapterReg) (v : PyValue) (proto : String) : Except PyErr AdaptOutcome :=
  match mroWalk reg proto (v.typeName :: v.mroTail) with
  | some c => .ok (.adapted c)
  | none =>
    match v.conform with
    | some f => .ok (.conformed (f proto))
    | none => .error (.programmingError ("can't adapt type '" ++ v.typeName ++ "'"))

/-! ### Helper lemmas about digits -/

theorem natToChars_ne_nil (n : Nat) : natToChars n ≠ [] := by
  rw [natToChars]
  split <;> simp

theorem natToChars_head_digit (n : Nat) :
    ∃ d, d < 10 ∧ (natToChars n).head? = some (digitChar d) := by
  induction n using Nat.strong_induction_on with
  | _ n ih =>
    rw [natToChars]
    split
    · exact ⟨n, by omega, rfl⟩
    · rename_i h
      have hlt : n / 10 < n := Nat.div_lt_self (by omega) (by omega)
      obtain ⟨d, hd, hhead⟩ := ih (n / 10) hlt
      refine ⟨d, hd, ?_⟩
      have hne := natToChars_ne_nil (n / 10)
      cases hhd : natToChars (n / 10) with
      | nil => exact absurd hhd hne
      | cons x xs =>
        rw [hhd] at hhead
        simpa [hhd] using hhead

theorem digitChar_ne_space_and_minus : ∀ d, d < 10 → digitChar d ≠ ' ' ∧ digitChar d ≠ '-' := by
  decide

/-! ## Claim C4 -/

/-- C4: for every negative integer, float, or finite decimal, the rendered
literal is a single space followed by the value's decimal text with the minus
sign retained (`-5 ↦ " -5"`); for non-negative finite values no leading space
is introduced. -/
theorem C4_negative_space_rendering :
    (∀ n : Int, n < 0 → intGetquoted n = ' ' :: '-' :: natToChars n.natAbs) ∧
    (∀ n : Int, 0 ≤ n → intGetquoted n = natToChars n.natAbs ∧
      (intGetquoted n).head? ≠ some ' ' ∧ (intGetquoted n).head? ≠ some '-') ∧
    (∀ mag, floatGetquoted (.finite true mag) = ' ' :: '-' :: mag) ∧
    (∀ mag, mag.head? ≠ some '-' → floatGetquoted (.finite false mag) = mag) ∧
    (∀ mag, decimalGetquoted (.finite true mag) = ' ' :: '-' :: mag) ∧
    (∀ mag, mag.head? ≠ some '-' → decimalGetquoted (.finite false mag) = mag) := by
  refine ⟨?_, ?_, ?_, ?_, ?_, ?_⟩
  · intro n hn
    simp only [intGetquoted, pyIntRepr, if_pos hn]
    rfl
  · intro n hn
    have hneg : ¬ n < 0 := by omega
    obtain ⟨d, hd, hhead⟩ := natToChars_head_digit n.natAbs
    obtain ⟨hsp, hmi⟩ := digitChar_ne_space_and_minus d hd
    have hh : (natToChars n.natAbs).head? ≠ some '-' := by
      rw [hhead]; simpa using hmi
    have he : intGetquoted n = natToChars n.natAbs := by
      simp only [intGetquoted, pyIntRepr, if_neg hneg, if_neg hh]
    refine ⟨he, ?_, ?_⟩
    · rw [he, hhead]; simpa using hsp
    · rw [he]; exact hh
  · intro mag
    simp [floatGetquoted, pyFloatRepr]
  · intro mag hmag
    simp [floatGetquoted, pyFloatRepr, hmag]
  · intro mag
    simp [decimalGetquoted]
  · intro mag hmag
    simp [decimalGetquoted, hmag]

/-- Witness for C4 at concrete inputs: adapting `-5` yields `" -5"`, adapting
`7` yields `"7"` with no leading space, a negative finite float renders with
the space and retained minus. -/
theorem C4_negative_space_rendering_witness :
    ((-5 : Int) < 0 ∧ intGetquoted (-5) = [' ', '-', '5']) ∧
    ((0 : Int) ≤ 7 ∧ intGetquoted 7 = ['7']) ∧
    floatGetquoted (.finite true ['2', '.', '5']) = [' ', '-', '2', '.', '5'] := by
  refine ⟨⟨by decide, ?_⟩, ⟨by decide, ?_⟩, ?_⟩
  · rw [C4_negative_space_rendering.1 (-5) (by decide)]
    simp [natToChars, digitChar]
  · rw [(C4_negative_space_rendering.2.1 7 (by decide)).1]
    simp [natToChars, digitChar]
  · exact C4_negative_space_rendering.2.2.1 ['2', '.', '5']

/-! ## Claim C3 -/

/-- C3: `adapt` looks up an adapter first under the value's exact type, then
under each ancestor in method-resolution order until a match, then falls back
to the value's `__conform__` hook, and fails with the adaptation error
(`ProgrammingError("can't adapt type ...")`) when neither exists: it equals
the lookup procedure transcribed from the spec's words. -/
theorem C3_adapt_lookup_order (reg : AdapterReg) (v : PyValue) (proto : String) :
    adapt reg v proto = adaptSpec reg v proto := by
  unfold adapt adaptSpec
  cases h : lookupAdapter reg v.typeName proto with
  | some c => simp [mroWalk, h]
  | none => simp [mroWalk, h]

/-! ## The cursor state machine (src/psycopg2ct/_impl/cursor.py)

The native libpq collaborator is abstracted by an `ExecOutcome`: what
`PQexec`/result introspection report for one executed command.
`commandOk t oid` is PGRES_COMMAND_OK with `PQcmdTuples` text `t` (`none` for
an empty tag, which the code turns into rowcount -1) and `PQoidValue = oid`;
`tuplesOk n` is PGRES_TUPLES_OK with `PQntuples = n`; `execFailed` is a null
handle from `PQexec`.  A row of a held result is modelled by its 0-based index
(`_build_row(row_num)` reads row `row_num` of `self._pgres`).

Fields not used by any claim (description, statusmessage, query text, the
typecast caches, the async machinery) are omitted; `connClosed` stands for
`self._connection.closed`. -/

inductive ExecOutcome where
  | commandOk (cmdTuples : Option Int) (oid : Int)
  | tuplesOk (ntuples : Nat)
  | emptyQuery
  | otherError
  | execFailed
deriving DecidableEq, Repr

structure CursorSt where
  closedFlag : Bool          -- self._closed
  connClosed : Bool          -- self._connection.closed
  name : Option Chars        -- self._name (already quote-escaped)
  noTuples : Bool            -- self._no_tuples
  rowcount : Int             -- self._rowcount
  rownumber : Nat            -- self._rownumber (only ever assigned 0 and incremented)
  arraysize : Int            -- self.arraysize
  itersize : Int             -- self.itersize
  pgres : Option ExecOutcome -- the held native result handle, with its content
  lastrowid : Int            -- self._lastrowid
deriving DecidableEq, Repr

/-- `Cursor.__init__` (cursor.py lines 53-87); `escapeName` is
`name.replace('"', '""')`. -/
def escapeName : Chars → Chars
  | [] => []
  | c :: r => if c = '"' then '"' :: '"' :: escapeName r else c :: escapeName r

def mkCursor (name : Option Chars) : CursorSt :=
  { closedFlag := false
    connClosed := false
    name := name.map escapeName
    noTuples := true
    rowcount := -1
    rownumber := 0
    arraysize := 1
    itersize := 2000
    pgres := none
    lastrowid := 0 }

/-- The `closed` property: `self._closed or self._connection.closed`. -/
def isClosed (st : CursorSt) : Bool := st.closedFlag || st.connClosed

/-- `Cursor._pq_fetch` (cursor.py lines 244-305), for a just-assigned result
whose content is `o`.  Mutations happen in source order, so the
`no_tuples := true` / `rownumber := 0` writes persist even on the raising
branches. -/
def pqFetch (o : ExecOutcome) (st : CursorSt) : Except PyErr Unit × CursorSt :=
  let st := { st with noTuples := true, rownumber := 0 }
  match o with
  | .commandOk t oid =>
    (.ok (), { st with rowcount := t.getD (-1), lastrowid := oid, pgres := none })
  | .tuplesOk n =>
    (.ok (), { st with rowcount := (n : Int), noTuples := false })
  | .emptyQuery =>
    (.error (.programmingError "can't execute an empty query"), st)
  | _ =>
    (.error .operationalError, st)

/-- `Cursor._pq_execute` (cursor.py lines 220-226), synchronous path:
`self._pgres = PQexec(...)`; a null handle raises the operational error,
otherwise `_pq_fetch` interprets the result. -/
def pqExecute (o : ExecOutcome) (st : CursorSt) : Except PyErr Unit × CursorSt :=
  match o with
  | .execFailed => (.error .operationalError, { st with pgres := none })
  | _ => pqFetch o { st with pgres := some o }

/-- `Cursor.execute` (cursor.py lines 170-218): the `check_closed` guard, then
clear the held handle and run the command; composition of the query text is
modelled separately (`combineCmdParams` below) and the command's effect is the
oracle outcome `o`. -/
def execute (st : CursorSt) (o : ExecOutcome) : Except PyErr Unit × CursorSt :=
  if isClosed st then (.error (.interfaceError "connection already closed"), st)
  else pqExecute o { st with pgres := none }

/-- The row-building loop of `fetchmany`/`fetchall`:
`for i in xrange(size): rows.append(self._build_row(self._rownumber)); self._rownumber += 1`.
Returns the rows (each modelled by its index) and the final rownumber. -/
def buildRows (rn : Nat) : Nat → List Nat × Nat
  | 0 => ([], rn)
  | k + 1 =>
    let rest := buildRows (rn + 1) k
    (rn :: rest.1, rest.2)

/-- `Cursor.fetchone` (cursor.py lines 338-358) with its `check_closed` and
`check_no_tuples` guards; for a named cursor the `FETCH FORWARD 1` round trip
has outcome `o`. -/
def fetchone (st : CursorSt) (o : ExecOutcome) : Except PyErr (Option Nat) × CursorSt :=
  if isClosed st then (.error (.interfaceError "connection already closed"), st)
  else if st.noTuples ∧ st.name = none then
    (.error (.programmingError "no results to fetch"), st)
  else
    match (if st.name ≠ none then pqExecute o st else (.ok (), st)) with
    | (.error e, st1) => (.error e, st1)
    | (.ok _, st1) =>
      if (st1.rownumber : Int) ≥ st1.rowcount then (.ok none, st1)
      else (.ok (some st1.rownumber), { st1 with rownumber := st1.rownumber + 1 })

/-- `Cursor.fetchmany` (cursor.py lines 360-401); `sizeArg = none` is an
omitted `size` argument (defaulting to `arraysize`); for a named cursor the
`FETCH FORWARD size` round trip has outcome `o`. -/
def fetchmany (st : CursorSt) (sizeArg : Option Int) (o : ExecOutcome) :
    Except PyErr (List Nat) × CursorSt :=
  if isClosed st then (.error (.interfaceError "connection already closed"), st)
  else if st.noTuples ∧ st.name = none then
    (.error (.programmingError "no results to fetch"), st)
  else
    let size0 := sizeArg.getD st.arraysize
    match (if st.name ≠ none then pqExecute o st else (.ok (), st)) with
    | (.error e, st1) => (.error e, st1)
    | (.ok _, st1) =>
      let size1 : Int :=
        if size0 > st1.rowcount - (st1.rownumber : Int) ∨ size0 < 0 then
          st1.rowcount - (st1.rownumber : Int)
        else size0
      if size1 ≤ 0 then (.ok [], st1)
      else
        let b := buildRows st1.rownumber size1.toNat
        (.ok b.1, { st1 with rownumber := b.2 })

/-- `Cursor.fetchall` (cursor.py lines 403-427). -/
def fetchall (st : CursorSt) (o : ExecOutcome) : Except PyErr (List Nat) × CursorSt :=
  if isClosed st then (.error (.interfaceError "connection already closed"), st)
  else if st.noTuples ∧ st.name = none then
    (.error (.programmingError "no results to fetch"), st)
  else
    match (if st.name ≠ none then pqExecute o st else (.ok (), st)) with
    | (.error e, st1) => (.error e, st1)
    | (.ok _, st1) =>
      let size : Int := st1.rowcount - (st1.rownumber : Int)
      if size ≤ 0 then (.ok [], st1)
      else
        let b := buildRows st1.rownumber size.toNat
        (.ok b.1, { st1 with rownumber := b.2 })

/-- One iteration of the `while 1` loop of `Cursor.__iter__` (cursor.py lines
532-546): `rows = self.fetchmany(self.itersize)`; an empty batch ends the
iteration (`.ok none`); otherwise `self._rownumber = 0` and one `+= 1` per
yielded row leave `rownumber = len(rows)` once the batch is consumed. -/
def iterStep (st : CursorSt) (o : ExecOutcome) :
    Except PyErr (Option (List Nat)) × CursorSt :=
  match fetchmany st (some st.itersize) o with
  | (.error e, st1) => (.error e, st1)
  | (.ok [], st1) => (.ok none, st1)
  | (.ok rows, st1) => (.ok (some rows), { st1 with rownumber := rows.length })

/-- Run the iteration loop for `fuel` batches.  Returns the rows yielded so
far, the final state, and whether the loop exited (empty batch or exception)
within the given fuel. -/
def iterRun (o : ExecOutcome) : Nat → CursorSt → List Nat × CursorSt × Bool
  | 0, st => ([], st, false)
  | f + 1, st =>
    match iterStep st o with
    | (.ok (some rows), st1) =>
      let rest := iterRun o f st1
      (rows ++ rest.1, rest.2)
    | (.ok none, st1) => ([], st1, true)
    | (.error _, st1) => ([], st1, true)

/-- The accumulation loop of `Cursor.executemany` (cursor.py lines 307-336). -/
def emLoop (st : CursorSt) (acc : Int) : List ExecOutcome → Except PyErr Unit × CursorSt
  | [] => (.ok (), { st with rowcount := acc })
  | o :: os =>
    match execute st o with
    | (.error e, st1) => (.error e, st1)
    | (.ok _, st1) =>
      let acc1 := if st1.rowcount = -1 then -1 else acc + st1.rowcount
      emLoop st1 acc1 os

/-- `Cursor.executemany`: `self._rowcount = -1; rowcount = 0;` then one
`self.execute` per parameter set (each parameter set's effect being the
corresponding oracle outcome), accumulating into `rowcount`, finally
`self._rowcount = rowcount`. -/
def executemany (st : CursorSt) (os : List ExecOutcome) : Except PyErr Unit × CursorSt :=
  if isClosed st then (.error (.interfaceError "connection already closed"), st)
  else emLoop { st with rowcount := -1 } 0 os

/-! ## Claim C1

The state after `execute('select ...')` returning two rows on an unnamed
cursor with `itersize = 1` (the repository's regression test
`test_bug_inf_fetch_loop.py` uses `N = 2 * itersize`; `N = 2, k = 1` is the
smallest such instance).  The outcome argument fed to the fetch operations is
irrelevant for an unnamed cursor. -/

def c1Init : CursorSt := (execute { mkCursor none with itersize := 1 } (.tuplesOk 2)).2

/-- The looping state of the defective iteration: after any full batch the
within-batch `rownumber` reset leaves the cursor here. -/
def c1Looping : CursorSt := { c1Init with rownumber := 1 }

theorem c1_step0 : iterStep c1Init .otherError = (.ok (some [0]), c1Looping) := by decide

theorem c1_step1 : iterStep c1Looping .otherError = (.ok (some [1]), c1Looping) := by decide

theorem c1_never_done : ∀ f, (iterRun .otherError f c1Looping).2.2 = false := by
  intro f
  induction f with
  | zero => rfl
  | succ f ih =>
    simp only [iterRun, c1_step1]
    exact ih

/-- C1 fails on this code: iterating a 2-row result with `itersize = 1` yields
row 0, then row 1, then row 1 again (a duplicate), and the loop never
terminates at any fuel — instead of yielding exactly the `N = 2` rows once
each and stopping.  `__iter__` resets `_rownumber` to the within-batch index,
so `fetchmany` re-reads the last batch forever when the result size exceeds
`itersize`. -/
theorem C1_iteration_repeats_rows_and_diverges :
    (iterRun .otherError 3 c1Init).1 = [0, 1, 1] ∧
    ∀ fuel, (iterRun .otherError fuel c1Init).2.2 = false := by
  constructor
  · decide
  · intro fuel
    cases fuel with
    | zero => rfl
    | succ f =>
      simp only [iterRun, c1_step0]
      exact c1_never_done f

/-! ## Claim C2 -/

/-- C2 as amended: in the no-tuples substate, `fetchone`, `fetchmany` and
`fetchall` fail with `ProgrammingError("no results to fetch")` — but only on
an UNNAMED cursor (`check_no_tuples` tests `self._name is None`); named
cursors skip the check. -/
theorem C2_no_results_to_fetch_unnamed (st : CursorSt) (sz : Option Int) (o : ExecOutcome)
    (hcl : isClosed st = false) (hnt : st.noTuples = true) (hname : st.name = none) :
    fetchone st o = (.error (.programmingError "no results to fetch"), st) ∧
    fetchmany st sz o = (.error (.programmingError "no results to fetch"), st) ∧
    fetchall st o = (.error (.programmingError "no results to fetch"), st) := by
  refine ⟨?_, ?_, ?_⟩ <;> simp [fetchone, fetchmany, fetchall, hcl, hnt, hname]

/-- Witness for C2: a freshly constructed unnamed cursor is in the no-tuples
substate and all three fetches fail with the no-result error. -/
theorem C2_no_results_to_fetch_unnamed_witness :
    fetchone (mkCursor none) .otherError
      = (.error (.programmingError "no results to fetch"), mkCursor none) ∧
    fetchmany (mkCursor none) (some 3) .otherError
      = (.error (.programmingError "no results to fetch"), mkCursor none) ∧
    fetchall (mkCursor none) .otherError
      = (.error (.programmingError "no results to fetch"), mkCursor none) :=
  C2_no_results_to_fetch_unnamed (mkCursor none) (some 3) .otherError
    (by decide) (by decide) (by decide)

/-- A named cursor right after its `execute` (the `DECLARE ... CURSOR` command
completes with PGRES_COMMAND_OK, so `_no_tuples` stays true). -/
def c2Named : CursorSt := (execute (mkCursor (some ['c'])) (.commandOk none 0)).2

/-- Counterexample to C2 as stated: a named cursor in the no-tuples substate
does NOT fail with the no-result error — `fetchone` issues the `FETCH FORWARD`
round trip and returns a row. -/
theorem C2_counterexample :
    c2Named.noTuples = true ∧ c2Named.name ≠ none ∧
    (fetchone c2Named (.tuplesOk 1)).1 = .ok (some 0) := by decide

/-! ## Claim C8 -/

/-- The rowcount reported by one (non-raising) execute, read off `_pq_fetch`:
PGRES_COMMAND_OK parses `PQcmdTuples` (empty text gives -1), PGRES_TUPLES_OK
reports `PQntuples`. -/
def outcomeRowcount : ExecOutcome → Int
  | .commandOk t _ => t.getD (-1)
  | .tuplesOk n => (n : Int)
  | _ => 0

/-- Counterexample to C8 as stated: two parameter sets whose executes report
-1 then 5 leave `rowcount = 4`, not the claimed -1 ("-1 if any individual
execute reports -1"). -/
theorem C8_counterexample :
    (executemany (mkCursor none)
      [.commandOk none 0, .commandOk (some 5) 0]).2.rowcount = 4 ∧
    (4 : Int) ≠ -1 := by decide

theorem execute_ok_of_benign (st : CursorSt) (o : ExecOutcome)
    (hcl : isClosed st = false)
    (hb : o ≠ .emptyQuery ∧ o ≠ .otherError ∧ o ≠ .execFailed) :
    (execute st o).1 = .ok () ∧
    (execute st o).2.rowcount = outcomeRowcount o ∧
    isClosed (execute st o).2 = false := by
  obtain ⟨h1, h2, h3⟩ := hb
  cases o <;> simp_all [execute, pqExecute, pqFetch, isClosed, outcomeRowcount]

theorem emLoop_fold (os : List ExecOutcome) : ∀ (st : CursorSt) (acc : Int),
    isClosed st = false →
    (∀ o ∈ os, o ≠ .emptyQuery ∧ o ≠ .otherError ∧ o ≠ .execFailed) →
    (emLoop st acc os).1 = .ok () ∧
    (emLoop st acc os).2.rowcount =
      os.foldl (fun a o => if outcomeRowcount o = -1 then -1 else a + outcomeRowcount o) acc := by
  induction os with
  | nil => intro st acc _ _; simp [emLoop]
  | cons o os ih =>
    intro st acc hcl hall
    have hb := hall o (by simp)
    obtain ⟨hok, hrc, hcl1⟩ := execute_ok_of_benign st o hcl hb
    have hrest : ∀ o2 ∈ os, o2 ≠ .emptyQuery ∧ o2 ≠ .otherError ∧ o2 ≠ .execFailed :=
      fun o2 hm => hall o2 (by simp [hm])
    simp only [emLoop]
    cases hx : execute st o with
    | mk r st1 =>
      rw [hx] at hok hrc hcl1
      simp only at hok hrc hcl1
      subst hok
      simp only [List.foldl_cons]
      rw [hrc]
      exact ih st1 _ hcl1 hrest

/-- C8 as amended: `executemany` runs one execute per parameter set
sequentially, and the final rowcount is the left fold (from 0) in which an
execute reporting -1 RESETS the accumulator to -1 and any other count is
added — so a -1 followed by a later successful execute is overwritten by
further addition (see the counterexample), rather than forcing a final -1. -/
theorem C8_executemany_rowcount_fold (st : CursorSt) (os : List ExecOutcome)
    (hcl : isClosed st = false)
    (hall : ∀ o ∈ os, o ≠ .emptyQuery ∧ o ≠ .otherError ∧ o ≠ .execFailed) :
    (executemany st os).1 = .ok () ∧
    (executemany st os).2.rowcount =
      os.foldl (fun a o => if outcomeRowcount o = -1 then -1 else a + outcomeRowcount o) 0 := by
  unfold executemany
  rw [if_neg (by simp [hcl])]
  exact emLoop_fold os _ 0 (by simpa [isClosed] using congrArg id hcl) hall

/-- Witness for C8 at a concrete input: outcomes reporting 2 and 3 rows give
rowcount 5. -/
theorem C8_executemany_rowcount_fold_witness :
    (executemany (mkCursor none) [.tuplesOk 2, .commandOk (some 3) 0]).1 = .ok () ∧
    (executemany (mkCursor none) [.tuplesOk 2, .commandOk (some 3) 0]).2.rowcount =
      [ExecOutcome.tuplesOk 2, ExecOutcome.commandOk (some 3) 0].foldl
        (fun a o => if outcomeRowcount o = -1 then -1 else a + outcomeRowcount o) 0 :=
  C8_executemany_rowcount_fold (mkCursor none) [.tuplesOk 2, .commandOk (some 3) 0]
    (by decide) (by decide)

/-! ## Claim C9 -/

theorem buildRows_snd (k : Nat) : ∀ rn, (buildRows rn k).2 = rn + k := by
  induction k with
  | zero => intro rn; simp [buildRows]
  | succ k ih => intro rn; simp [buildRows, ih (rn + 1)]; omega

theorem buildRows_length (k : Nat) : ∀ rn, (buildRows rn k).1.length = k := by
  induction k with
  | zero => intro rn; simp [buildRows]
  | succ k ih => intro rn; simp [buildRows, ih (rn + 1)]

theorem pqFetch_inv (o : ExecOutcome) (st : CursorSt) :
    ((pqFetch o st).2.rownumber : Int) ≤ max (pqFetch o st).2.rowcount 0 := by
  cases o <;> simp [pqFetch] <;> exact le_max_right _ _

theorem pqExecute_inv (o : ExecOutcome) (st : CursorSt)
    (h : (st.rownumber : Int) ≤ max st.rowcount 0) :
    ((pqExecute o st).2.rownumber : Int) ≤ max (pqExecute o st).2.rowcount 0 := by
  cases o <;> first
    | exact h
    | exact pqFetch_inv _ _

theorem execute_inv (st : CursorSt) (o : ExecOutcome)
    (h : (st.rownumber : Int) ≤ max st.rowcount 0) :
    ((execute st o).2.rownumber : Int) ≤ max (execute st o).2.rowcount 0 := by
  unfold execute
  split
  · exact h
  · exact pqExecute_inv o _ h

theorem fetchone_inv (st : CursorSt) (o : ExecOutcome)
    (h : (st.rownumber : Int) ≤ max st.rowcount 0) :
    ((fetchone st o).2.rownumber : Int) ≤ max (fetchone st o).2.rowcount 0 := by
  unfold fetchone
  split
  · exact h
  · split
    · exact h
    · have hpre : (((if st.name ≠ none then pqExecute o st else (.ok (), st)) :
          Except PyErr Unit × CursorSt).2.rownumber : Int) ≤
          max (if st.name ≠ none then pqExecute o st else (.ok (), st)).2.rowcount 0 := by
        split
        · exact pqExecute_inv o st h
        · exact h
      cases hM : (if st.name ≠ none then pqExecute o st else ((.ok (), st) :
          Except PyErr Unit × CursorSt)) with
      | mk r st1 =>
        rw [hM] at hpre
        simp only at hpre
        cases r with
        | error e => exact hpre
        | ok u =>
          simp only
          split
          · exact hpre
          · rename_i hlt
            push_neg at hlt
            simp only
            have h2 : (st1.rownumber : Int) + 1 ≤ st1.rowcount := by omega
            have h3 : ((st1.rownumber + 1 : Nat) : Int) ≤ st1.rowcount := by push_cast; omega
            exact le_trans h3 (le_max_left _ _)

theorem fetchBody_rn (st1 : CursorSt) (size1 : Int)
    (hle : size1 ≤ st1.rowcount - (st1.rownumber : Int))
    (h : (st1.rownumber : Int) ≤ max st1.rowcount 0) :
    ((if size1 ≤ 0 then ((.ok [], st1) : Except PyErr (List Nat) × CursorSt)
        else (.ok (buildRows st1.rownumber size1.toNat).1,
          { st1 with rownumber := (buildRows st1.rownumber size1.toNat).2 })).2.rownumber : Int)
      ≤ max (if size1 ≤ 0 then ((.ok [], st1) : Except PyErr (List Nat) × CursorSt)
        else (.ok (buildRows st1.rownumber size1.toNat).1,
          { st1 with rownumber := (buildRows st1.rownumber size1.toNat).2 })).2.rowcount 0 := by
  split
  · exact h
  · rename_i hz
    push_neg at hz
    refine le_trans ?_ (le_max_left _ _)
    show ((buildRows st1.rownumber size1.toNat).2 : Int) ≤ st1.rowcount
    rw [buildRows_snd]
    push_cast
    omega

theorem fetchBody_rows (st1 : CursorSt) (size1 : Int)
    (hle : size1 ≤ st1.rowcount - (st1.rownumber : Int)) :
    ∀ rows, (if size1 ≤ 0 then ((.ok [], st1) : Except PyErr (List Nat) × CursorSt)
        else (.ok (buildRows st1.rownumber size1.toNat).1,
          { st1 with rownumber := (buildRows st1.rownumber size1.toNat).2 })).1 = .ok rows →
      (rows.length : Int) ≤
        max (if size1 ≤ 0 then ((.ok [], st1) : Except PyErr (List Nat) × CursorSt)
          else (.ok (buildRows st1.rownumber size1.toNat).1,
            { st1 with rownumber := (buildRows st1.rownumber size1.toNat).2 })).2.rowcount 0 := by
  intro rows hr
  by_cases hz : size1 ≤ 0
  · rw [if_pos hz] at hr ⊢
    simp only [Except.ok.injEq] at hr
    subst hr
    simp
  · rw [if_neg hz] at hr ⊢
    push_neg at hz
    simp only [Except.ok.injEq] at hr
    subst hr
    refine le_trans ?_ (le_max_left _ _)
    show (((buildRows st1.rownumber size1.toNat).1.length : Nat) : Int) ≤ st1.rowcount
    rw [buildRows_length]
    push_cast
    omega

theorem fetchmany_inv (st : CursorSt) (sz : Option Int) (o : ExecOutcome)
    (h : (st.rownumber : Int) ≤ max st.rowcount 0) :
    (((fetchmany st sz o).2.rownumber : Int) ≤ max (fetchmany st sz o).2.rowcount 0) ∧
    (∀ rows, (fetchmany st sz o).1 = .ok rows →
      (rows.length : Int) ≤ max (fetchmany st sz o).2.rowcount 0) := by
  unfold fetchmany
  split
  · refine ⟨h, ?_⟩; intro rows hr; simp at hr
  · split
    · refine ⟨h, ?_⟩; intro rows hr; simp at hr
    · have hpre : (((if st.name ≠ none then pqExecute o st else (.ok (), st)) :
          Except PyErr Unit × CursorSt).2.rownumber : Int) ≤
          max (if st.name ≠ none then pqExecute o st else (.ok (), st)).2.rowcount 0 := by
        split
        · exact pqExecute_inv o st h
        · exact h
      cases hM : (if st.name ≠ none then pqExecute o st else ((.ok (), st) :
          Except PyErr Unit × CursorSt)) with
      | mk r st1 =>
        rw [hM] at hpre
        simp only at hpre
        cases r with
        | error e => exact ⟨hpre, by intro rows hr; simp at hr⟩
        | ok u =>
          have hle : (if Option.getD sz st.arraysize > st1.rowcount - (st1.rownumber : Int) ∨
                Option.getD sz st.arraysize < 0 then st1.rowcount - (st1.rownumber : Int)
              else Option.getD sz st.arraysize) ≤ st1.rowcount - (st1.rownumber : Int) := by
            split
            · exact le_refl _
            · rename_i hcl
              push_neg at hcl
              exact hcl.1
          exact ⟨fetchBody_rn st1 _ hle hpre, fetchBody_rows st1 _ hle⟩

theorem fetchall_inv (st : CursorSt) (o : ExecOutcome)
    (h : (st.rownumber : Int) ≤ max st.rowcount 0) :
    ((fetchall st o).2.rownumber : Int) ≤ max (fetchall st o).2.rowcount 0 := by
  unfold fetchall
  split
  · exact h
  · split
    · exact h
    · have hpre : (((if st.name ≠ none then pqExecute o st else (.ok (), st)) :
          Except PyErr Unit × CursorSt).2.rownumber : Int) ≤
          max (if st.name ≠ none then pqExecute o st else (.ok (), st)).2.rowcount 0 := by
        split
        · exact pqExecute_inv o st h
        · exact h
      cases hM : (if st.name ≠ none then pqExecute o st else ((.ok (), st) :
          Except PyErr Unit × CursorSt)) with
      | mk r st1 =>
        rw [hM] at hpre
        simp only at hpre
        cases r with
        | error e => exact hpre
        | ok u =>
          simp only
          split
          · exact hpre
          · rename_i hpos
            push_neg at hpos
            simp only
            rw [buildRows_snd]
            have : ((st1.rowcount - (st1.rownumber : Int)).toNat : Int) =
                st1.rowcount - (st1.rownumber : Int) := Int.toNat_of_nonneg (by omega)
            push_cast
            rw [this]
            have he : (st1.rownumber : Int) + (st1.rowcount - (st1.rownumber : Int)) =
                st1.rowcount := by ring
            rw [he]
            exact le_trans (by omega) (le_max_left _ _)

theorem iterStep_inv (st : CursorSt) (o : ExecOutcome)
    (h : (st.rownumber : Int) ≤ max st.rowcount 0) :
    ((iterStep st o).2.rownumber : Int) ≤ max (iterStep st o).2.rowcount 0 := by
  unfold iterStep
  obtain ⟨h1, h2⟩ := fetchmany_inv st (some st.itersize) o h
  cases hM : fetchmany st (some st.itersize) o with
  | mk r st1 =>
    rw [hM] at h1 h2
    simp only at h1 h2
    cases r with
    | error e => exact h1
    | ok rows =>
      cases rows with
      | nil => exact h1
      | cons a l =>
        simp only
        exact h2 (a :: l) rfl

/-- The cursor states reachable from construction through the operations the
claim cites: `execute`, the three fetch operations, and iteration steps (each
consuming an arbitrary native outcome where one is used). -/
inductive Reach : CursorSt → Prop where
  | init (name : Option Chars) : Reach (mkCursor name)
  | exec {st : CursorSt} (o : ExecOutcome) : Reach st → Reach (execute st o).2
  | fone {st : CursorSt} (o : ExecOutcome) : Reach st → Reach (fetchone st o).2
  | fmany {st : CursorSt} (sz : Option Int) (o : ExecOutcome) :
      Reach st → Reach (fetchmany st sz o).2
  | fall {st : CursorSt} (o : ExecOutcome) : Reach st → Reach (fetchall st o).2
  | istep {st : CursorSt} (o : ExecOutcome) : Reach st → Reach (iterStep st o).2

/-- C9 as amended: in every reachable cursor state, `rownumber` never exceeds
`max(rowcount, 0)` — i.e. it never exceeds `rowcount` whenever `rowcount ≥ 0`;
in the `rowcount = -1` states (construction, command with unknown count)
`rownumber` is 0, which exceeds the -1. -/
theorem C9_rownumber_le_max_rowcount {st : CursorSt} (h : Reach st) :
    (st.rownumber : Int) ≤ max st.rowcount 0 := by
  induction h with
  | init name => simp [mkCursor]
  | exec o _ ih => exact execute_inv _ _ ih
  | fone o _ ih => exact fetchone_inv _ _ ih
  | fmany sz o _ ih => exact (fetchmany_inv _ _ _ ih).1
  | fall o _ ih => exact fetchall_inv _ _ ih
  | istep o _ ih => exact iterStep_inv _ _ ih

/-- Witness for C9 at a concrete reachable state. -/
theorem C9_rownumber_le_max_rowcount_witness :
    ((mkCursor none).rownumber : Int) ≤ max (mkCursor none).rowcount 0 :=
  C9_rownumber_le_max_rowcount (Reach.init none)

/-- Counterexample to C9 as stated: a freshly constructed cursor is reachable
and has `rownumber = 0 > -1 = rowcount`. -/
theorem C9_counterexample :
    Reach (mkCursor none) ∧
    ¬ (((mkCursor none).rownumber : Int) ≤ (mkCursor none).rowcount) :=
  ⟨Reach.init none, by decide⟩

/-! ## The command composer (`_combine_cmd_params`, cursor.py lines 639-720)

`cmd` is the template; `params` is the single Python argument object, either a
mapping or a sequence.  The per-parameter quoting `_getquoted(param, conn)` is
a helper from the adapters module (not part of this file's composer) and is
passed in as the function `gq`; parameter values are an abstract type `α`.
Python string indexing and `str.find` are modelled exactly, including the
out-of-bounds `IndexError` on `cmd[idx + 1]` and `find`'s treatment of a
negative `end` argument as `len(cmd) - 1`. -/

/-- The argument container: a Python mapping with string keys or a sequence. -/
inductive Params (α : Type) where
  | map (kv : List (Chars × α))
  | seq (l : List α)

/-- `params[key]` for a string key: mapping lookup (KeyError when absent);
indexing a sequence with a string is a TypeError. -/
def pyGetKey {α : Type} : Params α → Chars → Except PyErr α
  | .map kv, k =>
    match kv.find? (fun p => p.1 = k) with
    | some p => .ok p.2
    | none => .error (.keyError k)
  | .seq _, _ => .error (.typeError "tuple indices must be integers, not str")

/-- `params[i]` for an integer index: sequence indexing (IndexError when out
of range); indexing a mapping with an integer key misses (KeyError). -/
def pyGetIdx {α : Type} : Params α → Nat → Except PyErr α
  | .seq l, i =>
    match l.get? i with
    | some v => .ok v
    | none => .error .indexError
  | .map _, i => .error (.keyError (natToChars i))

/-- `len(params)`. -/
def pyLen {α : Type} : Params α → Nat
  | .map kv => kv.length
  | .seq l => l.length

/-- The local `arg_values` of `_combine_cmd_params`: `None`, a dict of already
quoted named arguments (insertion-ordered), or a list of quoted positional
arguments. -/
inductive ArgValues where
  | none
  | named (m : List (Chars × Chars))
  | positional (l : List Chars)
deriving DecidableEq, Repr

/-- The loop state of `_combine_cmd_params`: `idx`, `param_num`, `arg_values`
and `named_args_format`. -/
structure ScanSt where
  idx : Nat
  paramNum : Nat
  argValues : ArgValues
  namedFmt : Option Bool
deriving DecidableEq, Repr

/-- The search loop of `s.find(c, start, stop)`; `fuel` is `stop - start`,
the exact number of remaining candidate positions, decremented once per
step as `start` advances. -/
def pyFindInAux (s : Chars) (c : Char) : Nat → Nat → Nat → Int
  | 0, _, _ => -1
  | fuel + 1, start, stop =>
    if start < stop then
      match s.get? start with
      | Option.none => -1
      | Option.some x =>
        if x = c then (start : Int)
        else pyFindInAux s c fuel (start + 1) stop
    else -1

/-- `s.find(c, start, stop)` restricted to single-character needles: first
index `i` with `start ≤ i < stop` (and `i < len(s)`) holding `c`, else -1. -/
def pyFindIn (s : Chars) (c : Char) (start stop : Nat) : Int :=
  pyFindInAux s c (stop - start) start stop

/-- `s.find(c, start)`. -/
def pyFind (s : Chars) (c : Char) (start : Nat) : Int := pyFindIn s c start s.length

/-- `s.find(c, start, stop)` where `stop` may be the -1 of a failed earlier
find: Python resolves a negative end as `len(s) + end`, so -1 means
`len(s) - 1` (the only negative value arising here). -/
def pyFindStop (s : Chars) (c : Char) (start : Nat) (stop : Int) : Int :=
  if stop < 0 then pyFindIn s c start (s.length - 1)
  else pyFindIn s c start stop.toNat

/-- `s[start:stop]` for `0 ≤ start ≤ stop`. -/
def pySlice (s : Chars) (start stop : Nat) : Chars := (s.take stop).drop start

/-- The `while idx < cmd_length` scanning loop of `_combine_cmd_params`
(cursor.py lines 660-710), including the inlined `check_format_char` (lines
652-657: a format character outside `'s '` — note that the string `'s '`
admits both `'s'` and a space — raises the unsupported-format ValueError).
`cmd[idx + 1]` is Python indexing: one past the end raises IndexError. -/
def scanAux {α : Type} (cmd : Chars) (params : Params α) (gq : α → Except PyErr Chars) :
    Nat → ScanSt → Except PyErr (ArgValues × Option Bool)
  | 0, st => .ok (st.argValues, st.namedFmt)
  | fuel + 1, st =>
  match cmd.get? st.idx with
  | Option.none => .ok (st.argValues, st.namedFmt)
  | Option.some c0 =>
    if c0 = '%' then
      match cmd.get? (st.idx + 1) with
      | Option.none => .error .indexError
      | Option.some c1 =>
        if c1 = '%' then
          -- escape: `idx += 1` in the branch plus the loop's `idx += 1`
          scanAux cmd params gq fuel { st with idx := st.idx + 2 }
        else if c1 = '(' then
          -- named parameter
          if st.namedFmt = some false then
            .error (.valueError "argument formats can't be mixed")
          else
            let maxLookahead := pyFind cmd '%' (st.idx + 2)
            let endP := pyFindStop cmd ')' (st.idx + 2) maxLookahead
            if endP < 0 then
              .error (.programmingError "incomplete placeholder: '%(' without ')'")
            else
              let e := endP.toNat
              let key := pySlice cmd (st.idx + 2) e
              let m := match st.argValues with | .named m0 => m0 | _ => []
              match ((if (m.find? (fun kv => kv.1 = key)).isSome then .ok m
                     else
                       match pyGetKey params key with
                       | .error err => .error err
                       | .ok v =>
                         match gq v with
                         | .error err => .error err
                         | .ok q => .ok (m ++ [(key, q)])) :
                    Except PyErr (List (Chars × Chars))) with
              | .error err => .error err
              | .ok m2 =>
                match cmd.get? (e + 1) with
                | Option.none => .error .indexError
                | Option.some fc =>
                  if fc = 's' ∨ fc = ' ' then
                    scanAux cmd params gq fuel
                      { st with idx := st.idx + 1, argValues := .named m2,
                                namedFmt := some true }
                  else .error (.valueErrorUnsupportedFormat fc st.idx)
        else
          -- indexed parameter
          if st.namedFmt = some true then
            .error (.valueError "argument formats can't be mixed")
          else if c1 = 's' ∨ c1 = ' ' then
            let l := match st.argValues with | .positional l0 => l0 | _ => []
            match pyGetIdx params st.paramNum with
            | .error err => .error err
            | .ok v =>
              match gq v with
              | .error err => .error err
              | .ok q =>
                scanAux cmd params gq fuel
                  { st with idx := st.idx + 2, paramNum := st.paramNum + 1,
                            argValues := .positional (l ++ [q]), namedFmt := some false }
          else .error (.valueErrorUnsupportedFormat c1 st.idx)
    else
      scanAux cmd params gq fuel { st with idx := st.idx + 1 }

/-- The scanning loop of `_combine_cmd_params`, entered with enough fuel for
its remaining iterations: the loop advances `idx` by at least one per
iteration, so `cmd.length - idx` iterations suffice. -/
def scan {α : Type} (cmd : Chars) (params : Params α) (gq : α → Except PyErr Chars)
    (st : ScanSt) : Except PyErr (ArgValues × Option Bool) :=
  scanAux cmd params gq (cmd.length - st.idx) st

/-! ### The final `cmd % arg_values` formatting pass

A model of CPython %-formatting restricted to what this module can feed it:
the substituted values are byte strings and every `%` in a template that
survived the scan is followed by `%`, `(key)` + flags + conversion, or flags +
conversion.  The conversions modelled are `s` (substitute) and the `%%`
escape; CPython's further conversions (numeric, `r`, ...) are only reachable
here through the `'% '` flag quirk, never matter to a verified claim, and are
uniformly mapped to the unsupported-format-character error. -/

/-- The right-hand side of `cmd % arg_values`: a tuple or a dict. -/
inductive FArgs where
  | tup (l : List Chars)
  | map (m : List (Chars × Chars))
deriving DecidableEq, Repr

/-- Parse a `%(...)` mapping key with CPython's paren counting: returns the
key and the rest of the format string, or `none` for an unterminated key. -/
def formatKeyAux : Chars → Nat → Option (Chars × Chars)
  | [], _ => Option.none
  | c :: r, d =>
    if c = ')' then
      if d = 1 then some ([], r)
      else
        match formatKeyAux r (d - 1) with
        | some (k, rest) => some (c :: k, rest)
        | Option.none => Option.none
    else
      match formatKeyAux r (if c = '(' then d + 1 else d) with
      | some (k, rest) => some (c :: k, rest)
      | Option.none => Option.none

/-- Skip CPython conversion flags `#0- +`. -/
def skipFlags : Chars → Chars
  | [] => []
  | c :: r =>
    if c = '#' ∨ c = '0' ∨ c = '-' ∨ c = ' ' ∨ c = '+' then skipFlags r else c :: r

theorem skipFlags_length_le (s : Chars) : (skipFlags s).length ≤ s.length := by
  induction s with
  | nil => simp [skipFlags]
  | cons c r ih =>
    rw [skipFlags]
    split
    · exact le_trans ih (by simp)
    · simp

theorem formatKeyAux_rest_length :
    ∀ (s : Chars) (d : Nat) (k rest : Chars), formatKeyAux s d = some (k, rest) →
      rest.length < s.length := by
  intro s
  induction s with
  | nil => intro d k rest h; simp [formatKeyAux] at h
  | cons c r ih =>
    intro d k rest h
    rw [formatKeyAux] at h
    by_cases hc : c = ')'
    · rw [if_pos hc] at h
      by_cases hd : d = 1
      · rw [if_pos hd] at h
        simp only [Option.some.injEq, Prod.mk.injEq] at h
        rw [← h.2]
        simp
      · rw [if_neg hd] at h
        cases hrec : formatKeyAux r (d - 1) with
        | none => rw [hrec] at h; simp at h
        | some p =>
          rw [hrec] at h
          cases p with
          | mk k2 rest2 =>
            simp only [Option.some.injEq, Prod.mk.injEq] at h
            have := ih (d - 1) k2 rest2 hrec
            rw [← h.2]
            simp
            omega
    · rw [if_neg hc] at h
      cases hrec : formatKeyAux r (if c = '(' then d + 1 else d) with
      | none => rw [hrec] at h; simp at h
      | some p =>
        rw [hrec] at h
        cases p with
        | mk k2 rest2 =>
          simp only [Option.some.injEq, Prod.mk.injEq] at h
          have := ih (if c = '(' then d + 1 else d) k2 rest2 hrec
          rw [← h.2]
          simp
          omega

/-- One pass of CPython %-formatting over the template.  `n` is the full
template length (used only to report the index inside the unsupported-format
error); `m` is the mapping for dict-style arguments (`none` for tuple-style),
`rem` the not-yet-consumed tuple arguments.  Returns the output and the
remaining tuple arguments. -/
def formatGoAux (n : Nat) (m : Option (List (Chars × Chars))) :
    Nat → Chars → List Chars → Except PyErr (Chars × List Chars)
  | _, [], rem => .ok ([], rem)
  | 0, _ :: _, rem => .ok ([], rem)
  | _ + 1, '%' :: [], _ => .error (.valueError "incomplete format")
  | fuel + 1, '%' :: c1 :: r2, rem =>
    if c1 = '%' then
      match formatGoAux n m fuel r2 rem with
      | .error e => .error e
      | .ok (out, rm) => .ok ('%' :: out, rm)
    else if c1 = '(' then
      match formatKeyAux r2 1 with
      | Option.none => .error (.valueError "incomplete format key")
      | Option.some kr =>
        match skipFlags kr.2 with
        | [] => .error (.valueError "incomplete format")
        | fc :: r3 =>
          if fc = 's' then
            match m with
            | some mp =>
              match mp.find? (fun p => p.1 = kr.1) with
              | some p =>
                match formatGoAux n m fuel r3 rem with
                | .error e => .error e
                | .ok (out, rm) => .ok (p.2 ++ out, rm)
              | Option.none => .error (.keyError kr.1)
            | Option.none => .error (.typeError "format requires a mapping")
          else .error (.valueErrorUnsupportedFormat fc (n - (fc :: r3).length))
    else
      match skipFlags (c1 :: r2) with
      | [] => .error (.valueError "incomplete format")
      | fc :: r3 =>
        if fc = 's' then
          match m with
          | some _ => .error (.typeError "not enough arguments for format string")
          | Option.none =>
            match rem with
            | [] => .error (.typeError "not enough arguments for format string")
            | v :: rem2 =>
              match formatGoAux n m fuel r3 rem2 with
              | .error e => .error e
              | .ok (out, rm) => .ok (v ++ out, rm)
        else .error (.valueErrorUnsupportedFormat fc (n - (fc :: r3).length))
  | fuel + 1, c :: r, rem =>
    match formatGoAux n m fuel r rem with
    | .error e => .error e
    | .ok (out, rm) => .ok (c :: out, rm)

/-- One pass of CPython %-formatting over the template, entered with enough
fuel for its remaining steps: each step consumes at least one character
(`formatKeyAux` and `skipFlags` only ever shorten the string — see
`formatKeyAux_rest_length` and `skipFlags_length_le`), so the template length
suffices. -/
def formatGo (n : Nat) (m : Option (List (Chars × Chars))) (s : Chars)
    (rem : List Chars) : Except PyErr (Chars × List Chars) :=
  formatGoAux n m s.length s rem

/-- `cmd % args` with `args` a tuple or a dict: run the formatting pass; for a
tuple, leftover arguments raise the
`TypeError("not all arguments converted during string formatting")`. -/
def pyFormat (cmd : Chars) : FArgs → Except PyErr Chars
  | .tup l =>
    match formatGo cmd.length Option.none cmd l with
    | .error e => .error e
    | .ok (out, rem) =>
      if rem.isEmpty then .ok out
      else .error (.typeError "not all arguments converted during string formatting")
  | .map m =>
    match formatGo cmd.length (some m) cmd [] with
    | .error e => .error e
    | .ok (out, _) => .ok out

/-- The tail of `_combine_cmd_params`:
`if not arg_values: return cmd % tuple()` (an empty dict or list is falsy),
`return cmd % arg_values` (positional `arg_values` having been made a tuple). -/
def finalFormat (cmd : Chars) : ArgValues → Except PyErr Chars
  | .none => pyFormat cmd (.tup [])
  | .named [] => pyFormat cmd (.tup [])
  | .positional [] => pyFormat cmd (.tup [])
  | .named m => pyFormat cmd (.map m)
  | .positional l => pyFormat cmd (.tup l)

/-- `_combine_cmd_params(cmd, params, conn)` (cursor.py lines 639-720): the
early return when `'%' not in cmd`, the scanning loop, the positional
argument-count check (only when the scan fixed positional mode), and the
final formatting pass. -/
def combineCmdParams {α : Type} (cmd : Chars) (params : Params α)
    (gq : α → Except PyErr Chars) : Except PyErr Chars :=
  if '%' ∈ cmd then
    match scan cmd params gq { idx := 0, paramNum := 0, argValues := .none, namedFmt := Option.none } with
    | .error e => .error e
    | .ok (av, nf) =>
      if nf = some false then
        let l := match av with | .positional l0 => l0 | _ => []
        if l.length ≠ pyLen params then
          .error (.typeError "not all arguments converted during string formatting")
        else finalFormat cmd av
      else finalFormat cmd av
  else .ok cmd

/-! ### List-indexing helpers for the composer proofs -/

theorem get?_some_lt {l : Chars} {c : Char} {n : Nat} (h : l.get? n = some c) :
    n < l.length := by
  by_contra hc
  push_neg at hc
  rw [List.get?_eq_none.mpr hc] at h
  simp at h

theorem get?_append_left {a : Chars} (b : Chars) {i : Nat} (h : i < a.length) :
    (a ++ b).get? i = a.get? i :=
  List.get?_append h

theorem get?_append_nat (a b : Chars) (i : Nat) :
    (a ++ b).get? (a.length + i) = b.get? i := by
  rw [List.get?_append_right (by omega)]
  congr 1
  omega

theorem no_pct_char {a : Chars} (hna : '%' ∉ a) {j : Nat} {c : Char}
    (h : a.get? j = some c) : c ≠ '%' :=
  fun he => hna (he ▸ List.get?_mem h)

/-! ### Stepping lemmas for the scanning loop -/

theorem scan_end {α : Type} (cmd : Chars) (params : Params α) (gq : α → Except PyErr Chars)
    (fuel : Nat) (st : ScanSt) (h : cmd.get? st.idx = Option.none) :
    scanAux cmd params gq fuel st = .ok (st.argValues, st.namedFmt) := by
  cases fuel with
  | zero => rfl
  | succ f => simp only [scanAux, h]

theorem scan_skip1 {α : Type} (cmd : Chars) (params : Params α) (gq : α → Except PyErr Chars)
    (f : Nat) (st : ScanSt) {c : Char} (h : cmd.get? st.idx = some c) (hc : c ≠ '%') :
    scanAux cmd params gq (f + 1) st = scanAux cmd params gq f { st with idx := st.idx + 1 } := by
  simp only [scanAux, h]
  rw [if_neg hc]

theorem scan_skip {α : Type} (cmd : Chars) (params : Params α) (gq : α → Except PyErr Chars) :
    ∀ (k f : Nat) (st : ScanSt),
      (∀ j, st.idx ≤ j → j < st.idx + k → ∃ c, cmd.get? j = some c ∧ c ≠ '%') →
      scanAux cmd params gq (f + k) st = scanAux cmd params gq f { st with idx := st.idx + k } := by
  intro k
  induction k with
  | zero =>
    intro f st _
    simp
  | succ k ih =>
    intro f st hall
    obtain ⟨c, hc, hcne⟩ := hall st.idx (le_refl _) (by omega)
    have h1 : scanAux cmd params gq (f + (k + 1)) st
        = scanAux cmd params gq (f + k) { st with idx := st.idx + 1 } :=
      scan_skip1 cmd params gq (f + k) st hc hcne
    rw [h1, ih f { st with idx := st.idx + 1 }
      (by intro j hj1 hj2; exact hall j (by simp at hj1; omega) (by simp at hj1 hj2 ⊢; omega))]
    have : st.idx + 1 + k = st.idx + (k + 1) := by omega
    simp only [this]

theorem scan_trailing_pct {α : Type} (cmd : Chars) (params : Params α)
    (gq : α → Except PyErr Chars) (f : Nat) (st : ScanSt)
    (hg : cmd.get? st.idx = some '%') (hlen : st.idx + 1 = cmd.length) :
    scanAux cmd params gq (f + 1) st = .error .indexError := by
  have hnone : cmd.get? (st.idx + 1) = Option.none :=
    List.get?_eq_none.mpr (by omega)
  simp only [scanAux, hg, if_pos rfl, hnone]
  simp

/-! ## Claim C10 -/

/-- C10: a template whose scan reaches a final bare `'%'` makes
`_combine_cmd_params` read `cmd[idx + 1]` at index `len(cmd)` — one past the
end — so composition fails with the out-of-bounds IndexError rather than the
documented unsupported-format-character ValueError; in particular any
`'%'`-free prefix followed by a single `'%'` composes to IndexError. -/
theorem C10_trailing_percent_reads_past_end {α : Type} (params : Params α)
    (gq : α → Except PyErr Chars) :
    (∀ (cmd : Chars) (f : Nat) (st : ScanSt),
        cmd.get? st.idx = some '%' → st.idx + 1 = cmd.length →
        scanAux cmd params gq (f + 1) st = .error .indexError) ∧
    (∀ a : Chars, '%' ∉ a →
        combineCmdParams (a ++ ['%']) params gq = .error .indexError) := by
  constructor
  · intro cmd f st hg hl
    exact scan_trailing_pct cmd params gq f st hg hl
  · intro a hna
    have hmem : '%' ∈ a ++ ['%'] := by simp
    rw [combineCmdParams, if_pos hmem]
    have hlen : (a ++ ['%']).length = a.length + 1 := by simp
    have hskip : scanAux (a ++ ['%']) params gq (1 + a.length)
          { idx := 0, paramNum := 0, argValues := .none, namedFmt := Option.none }
        = scanAux (a ++ ['%']) params gq 1
          { idx := 0 + a.length, paramNum := 0, argValues := .none, namedFmt := Option.none } := by
      apply scan_skip
      intro j hj1 hj2
      simp only at hj1 hj2
      have hjl : j < a.length := by omega
      obtain ⟨c, hc⟩ : ∃ c, a.get? j = some c := by
        cases hgj : a.get? j with
        | none => rw [List.get?_eq_none] at hgj; omega
        | some c => exact ⟨c, rfl⟩
      exact ⟨c, by rw [get?_append_left _ hjl, hc], no_pct_char hna hc⟩
    have hpct : (a ++ ['%']).get? (0 + a.length) = some '%' := by
      simpa using get?_append_nat a ['%'] 0
    have hfin := scan_trailing_pct (a ++ ['%']) params gq 0
      { idx := 0 + a.length, paramNum := 0, argValues := .none, namedFmt := Option.none }
      hpct (by simp [hlen])
    have hfuel : (a ++ ['%']).length - 0 = 1 + a.length := by simp [hlen]; omega
    rw [scan, hfuel] at *
    rw [hskip, hfin]

/-- Witness for C10: composing `"ab %"` reads one past the end and fails with
IndexError. -/
theorem C10_trailing_percent_reads_past_end_witness :
    combineCmdParams (['a', 'b', ' '] ++ ['%']) (Params.seq [(['1'] : Chars)])
      (fun v => .ok v) = .error .indexError :=
  (C10_trailing_percent_reads_past_end (Params.seq [['1']]) (fun v => .ok v)).2
    ['a', 'b', ' '] (by decide)

theorem scan_unsupported_char {α : Type} (cmd : Chars) (params : Params α)
    (gq : α → Except PyErr Chars) (f : Nat) (st : ScanSt) {c1 : Char}
    (hg : cmd.get? st.idx = some '%') (h1 : cmd.get? (st.idx + 1) = some c1)
    (hc1 : c1 ≠ '%') (hc2 : c1 ≠ '(') (hnf : st.namedFmt ≠ some true)
    (hcs : ¬(c1 = 's' ∨ c1 = ' ')) :
    scanAux cmd params gq (f + 1) st = .error (.valueErrorUnsupportedFormat c1 st.idx) := by
  simp only [scanAux, hg, if_pos rfl, h1]
  rw [if_neg hc1, if_neg hc2, if_neg hnf, if_neg hcs]
  simp

theorem scan_positional_step {α : Type} (cmd : Chars) (params : Params α)
    (gq : α → Except PyErr Chars) (f : Nat) (st : ScanSt) {c1 : Char} {v : α} {q : Chars}
    (hg : cmd.get? st.idx = some '%') (h1 : cmd.get? (st.idx + 1) = some c1)
    (hc1 : c1 ≠ '%') (hc2 : c1 ≠ '(') (hnf : st.namedFmt ≠ some true)
    (hcs : c1 = 's' ∨ c1 = ' ') (hav : st.argValues = .none)
    (hv : pyGetIdx params st.paramNum = .ok v) (hq : gq v = .ok q) :
    scanAux cmd params gq (f + 1) st
      = scanAux cmd params gq f
          { st with
            idx := st.idx + 2
            paramNum := st.paramNum + 1
            argValues := .positional [q]
            namedFmt := some false } := by
  simp only [scanAux, hg, if_pos rfl, h1]
  rw [if_neg hc1, if_neg hc2, if_neg hnf, if_pos hcs, hav]
  simp only [hv, hq, List.nil_append]
  simp

theorem scan_positional_lookup_error {α : Type} (cmd : Chars) (params : Params α)
    (gq : α → Except PyErr Chars) (f : Nat) (st : ScanSt) {c1 : Char} {err : PyErr}
    (hg : cmd.get? st.idx = some '%') (h1 : cmd.get? (st.idx + 1) = some c1)
    (hc1 : c1 ≠ '%') (hc2 : c1 ≠ '(') (hnf : st.namedFmt ≠ some true)
    (hcs : c1 = 's' ∨ c1 = ' ')
    (hv : pyGetIdx params st.paramNum = .error err) :
    scanAux cmd params gq (f + 1) st = .error err := by
  simp only [scanAux, hg, if_pos rfl, h1]
  rw [if_neg hc1, if_neg hc2, if_neg hnf, if_pos hcs]
  simp only [hv]
  simp

theorem scan_mixed_positional {α : Type} (cmd : Chars) (params : Params α)
    (gq : α → Except PyErr Chars) (f : Nat) (st : ScanSt) {c1 : Char}
    (hg : cmd.get? st.idx = some '%') (h1 : cmd.get? (st.idx + 1) = some c1)
    (hc1 : c1 ≠ '%') (hc2 : c1 ≠ '(') (hnf : st.namedFmt = some true) :
    scanAux cmd params gq (f + 1) st
      = .error (.valueError "argument formats can't be mixed") := by
  simp only [scanAux, hg, if_pos rfl, h1]
  rw [if_neg hc1, if_neg hc2, if_pos hnf]
  simp

theorem scan_mixed_named {α : Type} (cmd : Chars) (params : Params α)
    (gq : α → Except PyErr Chars) (f : Nat) (st : ScanSt)
    (hg : cmd.get? st.idx = some '%') (h1 : cmd.get? (st.idx + 1) = some '(')
    (hnf : st.namedFmt = some false) :
    scanAux cmd params gq (f + 1) st
      = .error (.valueError "argument formats can't be mixed") := by
  simp only [scanAux, hg, if_pos rfl, h1]
  simp [hnf]

theorem scan_named_step {α : Type} (cmd : Chars) (params : Params α)
    (gq : α → Except PyErr Chars) (f : Nat) (st : ScanSt) {e : Nat} {key : Chars}
    {v : α} {q : Chars}
    (hg : cmd.get? st.idx = some '%') (h1 : cmd.get? (st.idx + 1) = some '(')
    (hnf : st.namedFmt ≠ some false)
    (hend : pyFindStop cmd ')' (st.idx + 2) (pyFind cmd '%' (st.idx + 2)) = (e : Int))
    (hkey : pySlice cmd (st.idx + 2) e = key)
    (hav : st.argValues = .none)
    (hv : pyGetKey params key = .ok v) (hq : gq v = .ok q)
    (hfc : cmd.get? (e + 1) = some 's') :
    scanAux cmd params gq (f + 1) st
      = scanAux cmd params gq f
          { st with
            idx := st.idx + 1
            argValues := .named [(key, q)]
            namedFmt := some true } := by
  simp only [scanAux, hg, if_pos rfl, h1]
  rw [if_pos trivial]
  rw [if_neg (by decide : ¬ (('(' : Char) = '%'))]
  rw [if_pos trivial]
  rw [if_neg hnf]
  rw [hend]
  rw [if_neg (by omega : ¬ ((e : Int) < 0))]
  simp only [Int.toNat_natCast, hkey, hav]
  simp only [List.find?_nil, Option.isSome_none]
  rw [if_neg (by simp)]
  simp only [hv, hq, hfc]
  simp

theorem prefix_skip_hyp {a : Chars} (rest : Chars) (hna : '%' ∉ a) :
    ∀ j, 0 ≤ j → j < 0 + a.length → ∃ c, (a ++ rest).get? j = some c ∧ c ≠ '%' := by
  intro j _ hj2
  have hjl : j < a.length := by omega
  obtain ⟨c, hc⟩ : ∃ c, a.get? j = some c := by
    cases hgj : a.get? j with
    | none => rw [List.get?_eq_none] at hgj; omega
    | some c => exact ⟨c, rfl⟩
  exact ⟨c, by rw [get?_append_left _ hjl, hc], no_pct_char hna hc⟩

/-! ## Claim C6 -/

/-- Counterexample to C6 as stated: a space is not among `'%'`, `'('`, `'s'`,
yet `"% s"` does NOT fail with the unsupported-format-character error —
`check_format_char` tests membership in the two-character string `'s '`, so
the space is accepted as a format character and composition succeeds. -/
theorem C6_counterexample :
    combineCmdParams ['%', ' ', 's'] (Params.seq [(['1'] : Chars)]) (fun v => .ok v)
      = .ok ['1'] ∧
    ¬ ((' ' : Char) = '%' ∨ (' ' : Char) = '(' ∨ (' ' : Char) = 's') := by
  constructor
  · decide
  · decide

/-- C6 as amended: during scanning, a `'%'` followed by any character other
than `'%'`, `'('`, `'s'` — or `' '` (space), which `check_format_char`'s
`not in 's '` test also accepts — fails with the unsupported-format-character
error, reported at the index of the `'%'`. -/
theorem C6_unsupported_format_char {α : Type} (params : Params α)
    (gq : α → Except PyErr Chars) (a r : Chars) (c : Char)
    (hna : '%' ∉ a) (hc : ¬ (c = '%' ∨ c = '(' ∨ c = 's' ∨ c = ' ')) :
    combineCmdParams (a ++ '%' :: c :: r) params gq
      = .error (.valueErrorUnsupportedFormat c a.length) := by
  push_neg at hc
  obtain ⟨hc1, hc2, hc3, hc4⟩ := hc
  have hmem : '%' ∈ a ++ '%' :: c :: r := by simp
  rw [combineCmdParams, if_pos hmem]
  have hfuel : (a ++ '%' :: c :: r).length - 0 = (r.length + 2) + a.length := by
    simp; omega
  rw [scan, hfuel]
  rw [scan_skip (a ++ '%' :: c :: r) params gq a.length (r.length + 2) _
    (prefix_skip_hyp _ hna)]
  have hg : (a ++ '%' :: c :: r).get? (0 + a.length) = some '%' := by
    simpa using get?_append_nat a ('%' :: c :: r) 0
  have h1 : (a ++ '%' :: c :: r).get? (0 + a.length + 1) = some c := by
    have h := get?_append_nat a ('%' :: c :: r) 1
    simpa using h
  rw [scan_unsupported_char (a ++ '%' :: c :: r) params gq (r.length + 1) _
    hg h1 hc1 hc2 (by simp) (by simp [hc3, hc4])]
  simp

/-- Witness for C6's amended theorem: `"sel %q"` fails with the
unsupported-format error for `'q'` at index 4. -/
theorem C6_unsupported_format_char_witness :
    combineCmdParams (['s', 'e', 'l', ' '] ++ '%' :: 'q' :: []) (Params.seq [(['1'] : Chars)])
      (fun v => .ok v)
      = .error (.valueErrorUnsupportedFormat 'q' (['s', 'e', 'l', ' '] : Chars).length) :=
  C6_unsupported_format_char (Params.seq [['1']]) (fun v => .ok v)
    ['s', 'e', 'l', ' '] [] 'q' (by decide) (by decide)

/-! ## Claim C7 -/

/-- Counterexample to C7 as stated: a template with zero placeholders composed
with a non-empty argument sequence does not fail — the count check only runs
when the scan fixed positional mode, and with no placeholder
`named_args_format` stays `None`, so `"a%%b"` with one (unused) argument
composes successfully. -/
theorem C7_counterexample :
    combineCmdParams ['a', '%', '%', 'b'] (Params.seq [(['1'] : Chars)]) (fun v => .ok v)
      = .ok ['a', '%', 'b'] := by decide

/-- C7 as amended: when the scan encounters at least one positional
placeholder, a count mismatch is reported — but asymmetrically: with fewer
arguments than placeholders the scan itself fails looking up the missing
argument (IndexError from `params[param_num]`), and only with more arguments
than placeholders does the explicit count check fail with the
TypeError("not all arguments converted..."). With zero placeholders no
validation happens at all (see the counterexample). -/
theorem C7_positional_count_mismatch {α : Type} (gq : α → Except PyErr Chars)
    (a b : Chars) (hna : '%' ∉ a) (hnb : '%' ∉ b) :
    (combineCmdParams (a ++ '%' :: 's' :: b) (Params.seq ([] : List α)) gq
        = .error .indexError) ∧
    (∀ (l : List α) (v : α) (q : Chars),
        pyGetIdx (Params.seq l) 0 = .ok v → gq v = .ok q → 2 ≤ l.length →
        combineCmdParams (a ++ '%' :: 's' :: b) (Params.seq l) gq
          = .error (.typeError "not all arguments converted during string formatting")) := by
  have hmem : '%' ∈ a ++ '%' :: 's' :: b := by simp
  have hg : (a ++ '%' :: 's' :: b).get? (0 + a.length) = some '%' := by
    simpa using get?_append_nat a ('%' :: 's' :: b) 0
  have h1 : (a ++ '%' :: 's' :: b).get? (0 + a.length + 1) = some 's' := by
    have h := get?_append_nat a ('%' :: 's' :: b) 1
    simpa using h
  constructor
  · -- fewer arguments than placeholders: params[0] on an empty tuple
    rw [combineCmdParams, if_pos hmem]
    have hfuel : (a ++ '%' :: 's' :: b).length - 0 = (b.length + 2) + a.length := by
      simp; omega
    rw [scan, hfuel]
    rw [scan_skip (a ++ '%' :: 's' :: b) (Params.seq []) gq a.length (b.length + 2) _
      (prefix_skip_hyp _ hna)]
    rw [scan_positional_lookup_error (a ++ '%' :: 's' :: b) (Params.seq []) gq
      (b.length + 1) _ hg h1 (by decide) (by decide) (by simp) (Or.inl rfl) rfl]
  · intro l v q hv hq hlen
    rw [combineCmdParams, if_pos hmem]
    have hfuel : (a ++ '%' :: 's' :: b).length - 0 = ((1 + b.length) + 1) + a.length := by
      simp; omega
    rw [scan, hfuel]
    rw [scan_skip (a ++ '%' :: 's' :: b) (Params.seq l) gq a.length ((1 + b.length) + 1) _
      (prefix_skip_hyp _ hna)]
    rw [scan_positional_step (a ++ '%' :: 's' :: b) (Params.seq l) gq
      (1 + b.length) _ hg h1 (by decide) (by decide) (by simp) (Or.inl rfl) rfl hv hq]
    have hskipb : ∀ j, 0 + a.length + 2 ≤ j → j < 0 + a.length + 2 + b.length →
        ∃ c', (a ++ '%' :: 's' :: b).get? j = some c' ∧ c' ≠ '%' := by
      intro j hj1 hj2
      simp only [Nat.zero_add] at hj1 hj2
      have hi : j - a.length - 2 < b.length := by omega
      obtain ⟨c', hc'⟩ : ∃ c', b.get? (j - a.length - 2) = some c' := by
        cases hgj : b.get? (j - a.length - 2) with
        | none => rw [List.get?_eq_none] at hgj; omega
        | some c2 => exact ⟨c2, rfl⟩
      refine ⟨c', ?_, no_pct_char hnb hc'⟩
      have hj : j = a.length + (j - a.length - 2 + 2) := by omega
      rw [hj, get?_append_nat]
      have h2 : j - a.length - 2 + 2 = (j - a.length - 2 + 1) + 1 := by omega
      rw [h2, List.get?_cons_succ, List.get?_cons_succ]
      exact hc'
    rw [scan_skip (a ++ '%' :: 's' :: b) (Params.seq l) gq b.length 1 _ hskipb]
    rw [scan_end (a ++ '%' :: 's' :: b) (Params.seq l) gq 1 _
      (List.get?_eq_none.mpr (by simp; omega))]
    have hne : (([q] : List Chars)).length ≠ pyLen (Params.seq l) := by
      simp [pyLen]; omega
    simp [hne]
    intro hcontra
    simp [pyLen] at hcontra
    omega

/-! ### Computing `str.find` results -/

theorem pyFindIn_hit (s : Chars) (c : Char) (p stop : Nat) (hp : s.get? p = some c)
    (hstop : p < stop) :
    ∀ (d start : Nat), start + d = p →
      (∀ j, start ≤ j → j < p → ∃ x, s.get? j = some x ∧ x ≠ c) →
      pyFindIn s c start stop = (p : Int) := by
  intro d
  induction d with
  | zero =>
    intro start he _
    have hsp : start = p := by omega
    subst hsp
    obtain ⟨f, hf⟩ : ∃ f, stop - start = f + 1 := ⟨stop - start - 1, by omega⟩
    rw [pyFindIn, hf]
    simp only [pyFindInAux]
    rw [if_pos (by omega)]
    simp only [hp]
    simp
  | succ d ih =>
    intro start he hmiss
    obtain ⟨x, hx, hxne⟩ := hmiss start (le_refl _) (by omega)
    obtain ⟨f, hf⟩ : ∃ f, stop - start = f + 1 := ⟨stop - start - 1, by omega⟩
    rw [pyFindIn, hf]
    simp only [pyFindInAux]
    rw [if_pos (by omega)]
    simp only [hx]
    rw [if_neg hxne]
    have hf2 : f = stop - (start + 1) := by omega
    rw [hf2]
    exact ih (start + 1) (by omega) (fun j hj1 hj2 => hmiss j (by omega) hj2)

theorem pyFind_hit (s : Chars) (c : Char) (start p : Nat)
    (hsp : start ≤ p) (hp : s.get? p = some c)
    (hmiss : ∀ j, start ≤ j → j < p → ∃ x, s.get? j = some x ∧ x ≠ c) :
    pyFind s c start = (p : Int) :=
  pyFindIn_hit s c p s.length hp (get?_some_lt hp) (p - start) start (by omega) hmiss

theorem pyFindStop_hit (s : Chars) (c : Char) (start p : Nat) (stop : Nat)
    (hsp : start ≤ p) (hstop : p < stop) (hp : s.get? p = some c)
    (hmiss : ∀ j, start ≤ j → j < p → ∃ x, s.get? j = some x ∧ x ≠ c) :
    pyFindStop s c start (stop : Int) = (p : Int) := by
  rw [pyFindStop, if_neg (by omega)]
  simp only [Int.toNat_natCast]
  exact pyFindIn_hit s c p stop hp hstop (p - start) start (by omega) hmiss

/-- Witness for C7's amended theorem: `"x%s"` with zero arguments fails with
IndexError; with two arguments it fails with the count-mismatch TypeError. -/
theorem C7_positional_count_mismatch_witness :
    combineCmdParams (['x'] ++ '%' :: 's' :: []) (Params.seq ([] : List Chars))
      (fun v => .ok v) = .error .indexError ∧
    combineCmdParams (['x'] ++ '%' :: 's' :: []) (Params.seq [(['1'] : Chars), ['2']])
      (fun v => .ok v)
      = .error (.typeError "not all arguments converted during string formatting") := by
  constructor
  · exact (C7_positional_count_mismatch (fun v => .ok v) ['x'] [] (by decide) (by decide)).1
  · exact (C7_positional_count_mismatch (fun v => .ok v) ['x'] [] (by decide) (by decide)).2
      [['1'], ['2']] ['1'] ['1'] (by decide) rfl (by decide)

/-! ## Claim C5 -/

theorem pySlice_mid (a name rest : Chars) :
    pySlice (a ++ '%' :: '(' :: (name ++ rest)) (a.length + 2) (a.length + 2 + name.length)
      = name := by
  rw [pySlice]
  have h1 : a ++ '%' :: '(' :: (name ++ rest) = (a ++ ['%', '(']) ++ (name ++ rest) := by
    simp
  have hl : (a ++ ['%', '(']).length = a.length + 2 := by simp
  rw [h1]
  rw [show a.length + 2 + name.length = (a ++ ['%', '(']).length + name.length from by
    rw [hl]]
  rw [List.take_append]
  rw [show name.length = (name.length + 0) from by omega]
  rw [List.take_append]
  simp only [List.take_zero, List.append_nil]
  rw [show a.length + 2 = (a ++ ['%', '(']).length + 0 from by rw [hl]]
  rw [List.drop_append]
  simp

/-- C5: a template containing both a named placeholder `%(name)s` and a bare
positional `%s` — in either order — fails with
ValueError("argument formats can't be mixed"): the first placeholder fixes
the mode and the first later placeholder of the other kind raises.  The
surrounding text `a`, `b`, `cc` and the key `name` are arbitrary (`a`, `b`
and `name` free of `'%'`, `name` free of `')'`), and the lookups the scan
performs before reaching the clash are assumed to succeed. -/
theorem C5_mixed_formats_rejected {α : Type} (params : Params α)
    (gq : α → Except PyErr Chars) :
    (∀ (a b cc name : Chars) (v : α) (q : Chars),
        '%' ∉ a → '%' ∉ name → ')' ∉ name → '%' ∉ b →
        pyGetKey params name = .ok v → gq v = .ok q →
        combineCmdParams
            (a ++ '%' :: '(' :: (name ++ ')' :: 's' :: (b ++ '%' :: 's' :: cc))) params gq
          = .error (.valueError "argument formats can't be mixed")) ∧
    (∀ (a b cc name : Chars) (v : α) (q : Chars),
        '%' ∉ a → '%' ∉ b →
        pyGetIdx params 0 = .ok v → gq v = .ok q →
        combineCmdParams
            (a ++ '%' :: 's' :: (b ++ '%' :: '(' :: (name ++ ')' :: 's' :: cc))) params gq
          = .error (.valueError "argument formats can't be mixed")) := by
  constructor
  · intro a b cc name v q hna hnn hnr hnb hv hq
    set Y : Chars := b ++ '%' :: 's' :: cc with hY
    set inner : Chars := name ++ ')' :: 's' :: Y with hinnerdef
    set cmd : Chars := a ++ '%' :: '(' :: inner with hcmd
    have hmem : '%' ∈ cmd := by simp [hcmd]
    rw [combineCmdParams, if_pos hmem]
    have hfuel : cmd.length - 0
        = ((((cc.length + 1) + 1) + (name.length + b.length + 3)) + 1) + a.length := by
      simp [hcmd, hinnerdef, hY]
      omega
    rw [scan, hfuel]
    rw [scan_skip cmd params gq a.length _ _ (prefix_skip_hyp _ hna)]
    simp only [Nat.zero_add]
    -- base indexing facts
    have hbase : ∀ i, cmd.get? (a.length + i) = ('%' :: '(' :: inner).get? i :=
      fun i => get?_append_nat a _ i
    have hinn : ∀ m, cmd.get? (a.length + (m + 2)) = inner.get? m :=
      fun m => hbase (m + 2)
    have hR : ∀ t, inner.get? (name.length + t) = (')' :: 's' :: Y).get? t :=
      fun t => get?_append_nat name _ t
    have hYt : ∀ i, inner.get? (name.length + (i + 2)) = Y.get? i :=
      fun i => hR (i + 2)
    have hgA : cmd.get? a.length = some '%' := by
      have := hbase 0
      simpa using this
    have hgA1 : cmd.get? (a.length + 1) = some '(' := hbase 1
    have hrpar : inner.get? name.length = some ')' := by
      have := hR 0
      simpa using this
    have hfc0 : inner.get? (name.length + 1) = some 's' := hR 1
    have hpct2 : inner.get? (name.length + (b.length + 2)) = some '%' := by
      have h2 : Y.get? b.length = some '%' := by
        have := get?_append_nat b ('%' :: 's' :: cc) 0
        simpa [hY] using this
      exact (hYt b.length).trans h2
    have hs2 : inner.get? (name.length + (b.length + 3)) = some 's' := by
      have h2 : Y.get? (b.length + 1) = some 's' := get?_append_nat b ('%' :: 's' :: cc) 1
      have h3 : inner.get? (name.length + ((b.length + 1) + 2)) = Y.get? (b.length + 1) :=
        hYt (b.length + 1)
      rw [show name.length + (b.length + 3) = name.length + ((b.length + 1) + 2) from by omega]
      exact h3.trans h2
    -- a generic miss fact: positions strictly inside the named placeholder
    -- and the following text are not '%'
    have hmiss1 : ∀ j, a.length + 2 ≤ j →
        j < a.length + ((name.length + (b.length + 2)) + 2) →
        ∃ x, cmd.get? j = some x ∧ x ≠ '%' := by
      intro j hj1 hj2
      have hjm : j = a.length + ((j - a.length - 2) + 2) := by omega
      set m := j - a.length - 2 with hm
      have hmlt : m < name.length + (b.length + 2) := by omega
      by_cases h1 : m < name.length
      · obtain ⟨x, hx⟩ : ∃ x, name.get? m = some x := by
          cases hgx : name.get? m with
          | none => rw [List.get?_eq_none] at hgx; omega
          | some x => exact ⟨x, rfl⟩
        refine ⟨x, ?_, no_pct_char hnn hx⟩
        rw [hjm, hinn m, hinnerdef, get?_append_left _ h1]
        exact hx
      · push_neg at h1
        by_cases h2 : m = name.length
        · refine ⟨')', ?_, by decide⟩
          rw [hjm, hinn m, h2]
          exact hrpar
        · by_cases h3 : m = name.length + 1
          · refine ⟨'s', ?_, by decide⟩
            rw [hjm, hinn m, h3]
            exact hfc0
          · -- m ≥ name.length + 2: a character of b
            have hilt : m - name.length - 2 < b.length := by omega
            obtain ⟨x, hx⟩ : ∃ x, b.get? (m - name.length - 2) = some x := by
              cases hgx : b.get? (m - name.length - 2) with
              | none => rw [List.get?_eq_none] at hgx; omega
              | some x => exact ⟨x, rfl⟩
            refine ⟨x, ?_, no_pct_char hnb hx⟩
            rw [hjm, hinn m,
              show m = name.length + ((m - name.length - 2) + 2) from by omega,
              hYt (m - name.length - 2), hY, get?_append_left _ hilt]
            exact hx
    -- the two find results
    have hfind1 : pyFind cmd '%' (a.length + 2)
        = ((a.length + ((name.length + (b.length + 2)) + 2) : Nat) : Int) := by
      apply pyFind_hit cmd '%' (a.length + 2) _ (by omega)
      · exact (hinn (name.length + (b.length + 2))).trans hpct2
      · exact hmiss1
    have hfind2 : pyFindStop cmd ')' (a.length + 2)
          ((a.length + ((name.length + (b.length + 2)) + 2) : Nat) : Int)
        = ((a.length + 2 + name.length : Nat) : Int) := by
      apply pyFindStop_hit cmd ')' (a.length + 2) (a.length + 2 + name.length) _
        (by omega) (by omega)
      · rw [show a.length + 2 + name.length = a.length + (name.length + 2) from by omega]
        exact (hinn name.length).trans hrpar
      · intro j hj1 hj2
        have hjm : j = a.length + ((j - a.length - 2) + 2) := by omega
        set m := j - a.length - 2 with hm
        have hmlt : m < name.length := by omega
        obtain ⟨x, hx⟩ : ∃ x, name.get? m = some x := by
          cases hgx : name.get? m with
          | none => rw [List.get?_eq_none] at hgx; omega
          | some x => exact ⟨x, rfl⟩
        refine ⟨x, ?_, fun he => hnr (he ▸ List.get?_mem hx)⟩
        rw [hjm, hinn m, hinnerdef, get?_append_left _ hmlt]
        exact hx
    have hend : pyFindStop cmd ')' (a.length + 2) (pyFind cmd '%' (a.length + 2))
        = ((a.length + 2 + name.length : Nat) : Int) := by
      rw [hfind1]
      exact hfind2
    have hkey : pySlice cmd (a.length + 2) (a.length + 2 + name.length) = name := by
      rw [hcmd, hinnerdef]
      exact pySlice_mid a name _
    have hfc : cmd.get? (a.length + 2 + name.length + 1) = some 's' := by
      rw [show a.length + 2 + name.length + 1 = a.length + ((name.length + 1) + 2) from by
        omega]
      exact (hinn (name.length + 1)).trans hfc0
    rw [scan_named_step cmd params gq (cc.length + 1 + 1 + (name.length + b.length + 3))
      { idx := a.length, paramNum := 0, argValues := ArgValues.none, namedFmt := Option.none }
      hgA hgA1 (by simp) hend hkey rfl hv hq hfc]
    -- skip over "(name)s" and b
    rw [scan_skip cmd params gq (name.length + b.length + 3) ((cc.length + 1) + 1) _ ?hskip2]
    case hskip2 =>
      intro j hj1 hj2
      simp only at hj1 hj2
      by_cases hjp : j = a.length + 1
      · refine ⟨'(', ?_, by decide⟩
        rw [hjp]
        exact hgA1
      · exact hmiss1 j (by omega) (by omega)
    -- the clash: a positional %s while named_args_format is fixed to named
    have hg3 : cmd.get? (a.length + 1 + (name.length + b.length + 3)) = some '%' := by
      rw [show a.length + 1 + (name.length + b.length + 3)
          = a.length + ((name.length + (b.length + 2)) + 2) from by omega]
      exact (hinn (name.length + (b.length + 2))).trans hpct2
    have h13 : cmd.get? (a.length + 1 + (name.length + b.length + 3) + 1) = some 's' := by
      rw [show a.length + 1 + (name.length + b.length + 3) + 1
          = a.length + ((name.length + (b.length + 3)) + 2) from by omega]
      exact (hinn (name.length + (b.length + 3))).trans hs2
    simp only []
    rw [scan_mixed_positional cmd params gq (cc.length + 1)
      { idx := a.length + 1 + (name.length + b.length + 3), paramNum := 0,
        argValues := ArgValues.named [(name, q)], namedFmt := some true }
      hg3 h13 (by decide) (by decide) rfl]
  · intro a b cc name v q hna hnb hv hq
    set Z : Chars := '%' :: '(' :: (name ++ ')' :: 's' :: cc) with hZ
    set inner : Chars := b ++ Z with hinnerdef
    set cmd : Chars := a ++ '%' :: 's' :: inner with hcmd
    have hmem : '%' ∈ cmd := by simp [hcmd, hZ]
    rw [combineCmdParams, if_pos hmem]
    have hfuel : cmd.length - 0
        = ((((name.length + cc.length + 4) + 1) + b.length) + 1) + a.length := by
      simp [hcmd, hinnerdef, hZ]
      omega
    rw [scan, hfuel]
    rw [scan_skip cmd params gq a.length _ _ (prefix_skip_hyp _ hna)]
    simp only [Nat.zero_add]
    have hbase : ∀ i, cmd.get? (a.length + i) = ('%' :: 's' :: inner).get? i :=
      fun i => get?_append_nat a _ i
    have hinn : ∀ m, cmd.get? (a.length + (m + 2)) = inner.get? m :=
      fun m => hbase (m + 2)
    have hgA : cmd.get? a.length = some '%' := by
      have := hbase 0
      simpa using this
    have hgA1 : cmd.get? (a.length + 1) = some 's' := hbase 1
    rw [scan_positional_step cmd params gq (name.length + cc.length + 4 + 1 + b.length)
      { idx := a.length, paramNum := 0, argValues := ArgValues.none, namedFmt := Option.none }
      hgA hgA1 (by decide) (by decide) (by simp) (Or.inl rfl) rfl hv hq]
    simp only []
    -- skip over b
    rw [scan_skip cmd params gq b.length ((name.length + cc.length + 4) + 1) _ ?hskipb]
    case hskipb =>
      intro j hj1 hj2
      simp only at hj1 hj2
      have hilt : j - a.length - 2 < b.length := by omega
      obtain ⟨x, hx⟩ : ∃ x, b.get? (j - a.length - 2) = some x := by
        cases hgx : b.get? (j - a.length - 2) with
        | none => rw [List.get?_eq_none] at hgx; omega
        | some x => exact ⟨x, rfl⟩
      refine ⟨x, ?_, no_pct_char hnb hx⟩
      rw [show j = a.length + ((j - a.length - 2) + 2) from by omega, hinn _,
        hinnerdef, get?_append_left _ hilt]
      exact hx
    -- the clash: a named %( while named_args_format is fixed to positional
    have hg3 : cmd.get? (a.length + 2 + b.length) = some '%' := by
      rw [show a.length + 2 + b.length = a.length + (b.length + 2) from by omega,
        hinn b.length, hinnerdef]
      have := get?_append_nat b Z 0
      simpa [hZ] using this
    have h13 : cmd.get? (a.length + 2 + b.length + 1) = some '(' := by
      rw [show a.length + 2 + b.length + 1 = a.length + ((b.length + 1) + 2) from by omega,
        hinn (b.length + 1), hinnerdef]
      exact get?_append_nat b Z 1
    simp only []
    rw [scan_mixed_named cmd params gq (name.length + cc.length + 4)
      { idx := a.length + 2 + b.length, paramNum := 1,
        argValues := ArgValues.positional [q], namedFmt := some false }
      hg3 h13 rfl]

/-- Witness for C5 at concrete inputs: `"x%(n)s %s"` and `"x%s %(n)s"` both
fail with the mixed-formats ValueError. -/
theorem C5_mixed_formats_rejected_witness :
    combineCmdParams
        (['x'] ++ '%' :: '(' :: (['n'] ++ ')' :: 's' :: ([' '] ++ '%' :: 's' :: [])))
        (Params.map [((['n'] : Chars), (['7'] : Chars))]) (fun v => .ok v)
      = .error (.valueError "argument formats can't be mixed") ∧
    combineCmdParams
        (['x'] ++ '%' :: 's' :: ([' '] ++ '%' :: '(' :: (['n'] ++ ')' :: 's' :: [])))
        (Params.seq [(['7'] : Chars)]) (fun v => .ok v)
      = .error (.valueError "argument formats can't be mixed") := by
  constructor
  · exact (C5_mixed_formats_rejected (Params.map [(['n'], ['7'])]) (fun v => .ok v)).1
      ['x'] [' '] [] ['n'] ['7'] ['7'] (by decide) (by decide) (by decide) (by decide)
      (by decide) rfl
  · exact (C5_mixed_formats_rejected (Params.seq [['7']]) (fun v => .ok v)).2
      ['x'] [' '] [] ['n'] ['7'] ['7'] (by decide) (by decide) (by decide) rfl
